import Mathlib

/-!
Verification of the als repository (an ALS text codec).

The development shallowly embeds the two core source files,
src/app/lib/src/als/parser.rs (the recursive-descent ALS parser and
document expansion) and src/app/lib/src/pattern/combined.rs (the
combined pattern detector), as executable Lean functions.

Embedding conventions:
- The tokenizer (als/tokenizer.rs) is not part of the sources; the parser
  is therefore embedded at the token level, as a pure function over a
  List Token, mirroring the peek-token / next-token discipline of the Rust
  code.  An exhausted token list behaves like the Eof token, as the Rust
  tokenizer keeps yielding Eof at the end of input.
- Byte positions inside syntax errors come from the tokenizer and are not
  recoverable from a token list; the embedding reports position 0.
- Machine integers: i64 token payloads are Int; the Rust cast
  of an i64 count to usize is the two's-complement reinterpretation,
  embedded explicitly as i64ToUsize.
- Floating point: the only observable use of an f64 token in the parser is
  its decimal rendering (value.to_string()), so the Float token carries
  that rendered string.
-/

namespace Als

/-- Version payload of a version token (als/tokenizer.rs VersionType):
an ALS version line with a u8 payload, or the CTX fallback flavor. -/
inductive VersionType where
  | als (v : Nat)
  | ctx
deriving DecidableEq

/-- Tokens produced by the ALS tokenizer (als/tokenizer.rs Token).
The float token carries the decimal rendering of its f64 payload
(the only way the parser observes it). -/
inductive Token where
  | version (v : VersionType)
  | dictionaryHeader (name : String) (values : List String)
  | schemaColumn (name : String)
  | integer (n : Int)
  | float (rendered : String)
  | rawValue (s : String)
  | dictRef (idx : Nat)
  | rangeOp
  | multiplyOp
  | toggleOp
  | stepSeparator
  | columnSeparator
  | openParen
  | closeParen
  | newline
  | eof
deriving DecidableEq

/-- Error kinds of the core (error.rs AlsError), restricted to the kinds
the embedded components can produce. -/
inductive AlsError where
  | alsSyntaxError (position : Nat) (message : String)
  | invalidDictRef (index size : Nat)
  | rangeOverflow (start stop step : Int)
  | versionMismatch (expected found : Nat)
  | columnMismatch (schema data : Nat)
deriving DecidableEq

/-- Operator tree (als/operator.rs AlsOperator), the algebraic type of
spec section 3: raw literal, dictionary reference, inclusive stepped
range, run-length multiplier, cyclic toggle. -/
inductive AlsOperator where
  | raw (literal : String)
  | dictRef (index : Nat)
  | range (start stop step : Int)
  | multiply (value : AlsOperator) (count : Nat)
  | toggle (values : List String) (count : Nat)
deriving DecidableEq

instance {ε α : Type} [DecidableEq ε] [DecidableEq α] :
    DecidableEq (Except ε α) := fun x y =>
  match x, y with
  | .error a, .error b =>
      if h : a = b then .isTrue (by rw [h]) else .isFalse (by simp [h])
  | .ok a, .ok b =>
      if h : a = b then .isTrue (by rw [h]) else .isFalse (by simp [h])
  | .error _, .ok _ => .isFalse (by simp)
  | .ok _, .error _ => .isFalse (by simp)

/-- Rendering of a token for syntax-error messages, standing in for the
Rust Debug formatting of Token. -/
def reprToken : Token → String
  | .version _ => "Version"
  | .dictionaryHeader _ _ => "DictionaryHeader"
  | .schemaColumn _ => "SchemaColumn"
  | .integer n => "Integer(" ++ toString n ++ ")"
  | .float s => "Float(" ++ s ++ ")"
  | .rawValue s => "RawValue(" ++ s ++ ")"
  | .dictRef i => "DictRef(" ++ toString i ++ ")"
  | .rangeOp => "RangeOp"
  | .multiplyOp => "MultiplyOp"
  | .toggleOp => "ToggleOp"
  | .stepSeparator => "StepSeparator"
  | .columnSeparator => "ColumnSeparator"
  | .openParen => "OpenParen"
  | .closeParen => "CloseParen"
  | .newline => "Newline"
  | .eof => "Eof"

/-- Modelled from the spec: ParserConfig (config.rs is not among the
sources).  Only max_range_expansion is consulted by the parser; its
default is 10000 per the configuration table of spec section 6. -/
structure ParserConfig where
  maxRangeExpansion : Nat
deriving DecidableEq

/-- Default parser configuration (AlsParser::new). -/
def ParserConfig.default : ParserConfig := ⟨10000⟩

/-- Current maximum supported ALS version
(AlsParser::MAX_SUPPORTED_VERSION, parser.rs line 23). -/
def maxSupportedVersion : Nat := 1

/-- Two's-complement reinterpretation of an i64 value as a usize,
embedding the Rust expression (count as usize) of parser.rs. -/
def i64ToUsize (n : Int) : Nat := (n % (2 ^ 64)).toNat

/-- Bounds of the i64 type, used by the overflow check of range
construction. -/
def fitsI64 (n : Int) : Prop := -(2 ^ 63) ≤ n ∧ n < 2 ^ 63

instance (n : Int) : Decidable (fitsI64 n) := by
  unfold fitsI64; infer_instance

/-- Number of values an in-direction range start/stop/step materialises
(the direction-sign precondition is checked by the caller). -/
def rangeCount (start stop step : Int) : Nat :=
  (stop - start).natAbs / step.natAbs + 1

/-- Modelled from the spec: AlsOperator::range_safe_with_limit
(als/operator.rs is not among the sources).  Per spec sections 3 and 4.3,
range construction enforces step different from 0, (end - start) and step
sharing sign, rejection of i64 overflow of (end - start), and an
expansion-count cap of max_range_expansion; a violation is the
RangeOverflow error of the error taxonomy. -/
def rangeSafeWithLimit (start stop step : Int) (maxExp : Nat) :
    Except AlsError AlsOperator :=
  if step = 0 then .error (.rangeOverflow start stop step)
  else if ¬ fitsI64 (stop - start) then .error (.rangeOverflow start stop step)
  else if ¬ ((0 ≤ stop - start ∧ 0 < step) ∨ (stop - start ≤ 0 ∧ step < 0)) then
    .error (.rangeOverflow start stop step)
  else if maxExp < rangeCount start stop step then
    .error (.rangeOverflow start stop step)
  else .ok (.range start stop step)

/-- Expect and consume an integer token
(AlsParser::expect_integer, parser.rs lines 297-305). -/
def expectInteger : List Token → Except AlsError (Int × List Token)
  | .integer n :: rest => .ok (n, rest)
  | t :: _ =>
      .error (.alsSyntaxError 0 ("Expected integer but found " ++ reprToken t))
  | [] =>
      .error (.alsSyntaxError 0 ("Expected integer but found " ++ reprToken .eof))

/-- Expect and consume a value token, rendered as a string
(AlsParser::expect_value, parser.rs lines 308-318). -/
def expectValue : List Token → Except AlsError (String × List Token)
  | .integer n :: rest => .ok (toString n, rest)
  | .float s :: rest => .ok (s, rest)
  | .rawValue s :: rest => .ok (s, rest)
  | t :: _ =>
      .error (.alsSyntaxError 0 ("Expected value but found " ++ reprToken t))
  | [] =>
      .error (.alsSyntaxError 0 ("Expected value but found " ++ reprToken .eof))

theorem expectValue_length {ts : List Token} {v : String} {rest : List Token}
    (h : expectValue ts = .ok (v, rest)) : rest.length < ts.length := by
  match ts with
  | [] => simp [expectValue] at h
  | .integer n :: r => simp [expectValue] at h; simp [h.2.symm]
  | .float s :: r => simp [expectValue] at h; simp [h.2.symm]
  | .rawValue s :: r => simp [expectValue] at h; simp [h.2.symm]
  | .version v :: r | .dictionaryHeader a b :: r | .schemaColumn a :: r
  | .dictRef i :: r | .rangeOp :: r | .multiplyOp :: r | .toggleOp :: r
  | .stepSeparator :: r | .columnSeparator :: r | .openParen :: r
  | .closeParen :: r | .newline :: r | .eof :: r =>
      simp [expectValue] at h

/-- Check for a multiplier following a constructed range operator
(the tail of AlsParser::parse_range, parser.rs lines 235-241). -/
def parseRangeTail (rangeOp : AlsOperator) (ts : List Token) :
    Except AlsError (AlsOperator × List Token) :=
  match ts with
  | .multiplyOp :: rest =>
      match expectInteger rest with
      | .error e => .error e
      | .ok (count, rest2) => .ok (.multiply rangeOp (i64ToUsize count), rest2)
  | _ => .ok (rangeOp, ts)

/-- Parse a range expression after the leading integer and the range
operator have been consumed: stop, optional step via the step separator,
safe range construction, optional multiplier
(AlsParser::parse_range, parser.rs lines 217-242). -/
def parseRange (cfg : ParserConfig) (start : Int) (ts : List Token) :
    Except AlsError (AlsOperator × List Token) := do
  let (stop, ts) ← expectInteger ts
  let (step, ts) ←
    match ts with
    | .stepSeparator :: rest => expectInteger rest
    | _ => .ok (if start ≤ stop then (1 : Int) else -1, ts)
  let rangeOp ← rangeSafeWithLimit start stop step cfg.maxRangeExpansion
  parseRangeTail rangeOp ts

/-- Collect the additional values of a toggle expression while the next
token is the toggle operator (the while-let loop of
AlsParser::parse_toggle, parser.rs lines 253-257). -/
def parseToggleValues (acc : List String) (ts : List Token) :
    Except AlsError (List String × List Token) :=
  match ts with
  | .toggleOp :: rest =>
      match h : expectValue rest with
      | .error e => .error e
      | .ok (v, rest2) => parseToggleValues (acc ++ [v]) rest2
  | _ => .ok (acc, ts)
termination_by ts.length
decreasing_by
  have := expectValue_length h
  simp; omega

/-- Parse the optional count of a toggle expression (the tail of
AlsParser::parse_toggle, parser.rs lines 260-267): an explicit
multiplier, or the number of values as the default, one full cycle. -/
def parseToggleCount (values : List String) (ts : List Token) :
    Except AlsError (AlsOperator × List Token) :=
  match ts with
  | .multiplyOp :: rest =>
      match expectInteger rest with
      | .error e => .error e
      | .ok (count, rest2) => .ok (.toggle values (i64ToUsize count), rest2)
  | _ => .ok (.toggle values values.length, ts)

/-- Parse a toggle expression after the first value and the toggle
operator have been consumed (AlsParser::parse_toggle, parser.rs
lines 245-268). -/
def parseToggle (first : String) (ts : List Token) :
    Except AlsError (AlsOperator × List Token) := do
  let (second, ts) ← expectValue ts
  let (values, ts) ← parseToggleValues [first, second] ts
  parseToggleCount values ts

/-- Parse an element starting with an integer: range, multiply, toggle,
or a bare raw value (AlsParser::parse_integer_element, parser.rs
lines 165-182). -/
def parseIntegerElement (cfg : ParserConfig) (n : Int) (ts : List Token) :
    Except AlsError (AlsOperator × List Token) :=
  match ts with
  | .rangeOp :: rest => parseRange cfg n rest
  | .multiplyOp :: rest => do
      let (count, rest) ← expectInteger rest
      .ok (.multiply (.raw (toString n)) (i64ToUsize count), rest)
  | .toggleOp :: rest => parseToggle (toString n) rest
  | _ => .ok (.raw (toString n), ts)

/-- Parse an element starting with a float, observed through its rendered
string (AlsParser::parse_float_element, parser.rs lines 185-198). -/
def parseFloatElement (rendered : String) (ts : List Token) :
    Except AlsError (AlsOperator × List Token) :=
  match ts with
  | .multiplyOp :: rest => do
      let (count, rest) ← expectInteger rest
      .ok (.multiply (.raw rendered) (i64ToUsize count), rest)
  | .toggleOp :: rest => parseToggle rendered rest
  | _ => .ok (.raw rendered, ts)

/-- Parse an element starting with a raw value
(AlsParser::parse_raw_element, parser.rs lines 201-214). -/
def parseRawElement (value : String) (ts : List Token) :
    Except AlsError (AlsOperator × List Token) :=
  match ts with
  | .multiplyOp :: rest => do
      let (count, rest) ← expectInteger rest
      .ok (.multiply (.raw value) (i64ToUsize count), rest)
  | .toggleOp :: rest => parseToggle value rest
  | _ => .ok (.raw value, ts)

mutual

/-- Parse a single element given its already-consumed first token
(AlsParser::parse_element, parser.rs lines 150-162).  Note that a
dictionary reference is returned immediately, without looking ahead for
a multiply operator. -/
def parseElement (cfg : ParserConfig) (t : Token) (ts : List Token) :
    Except AlsError (AlsOperator × List Token) :=
  match t with
  | .integer n => parseIntegerElement cfg n ts
  | .float s => parseFloatElement s ts
  | .rawValue s => parseRawElement s ts
  | .dictRef idx => .ok (.dictRef idx, ts)
  | .openParen => parseGroupedElement cfg ts
  | t => .error (.alsSyntaxError 0 ("Unexpected token: " ++ reprToken t))
termination_by (ts.length, 1)

/-- Parse a grouped element after the opening parenthesis
(AlsParser::parse_grouped_element, parser.rs lines 271-294): inner
element, closing parenthesis, optional multiplier bound to the whole
inner element.  On an exhausted list the next token is Eof, and
parse_element on Eof yields the unexpected-token error, inlined here. -/
def parseGroupedElement (cfg : ParserConfig) (ts : List Token) :
    Except AlsError (AlsOperator × List Token) :=
  match ts with
  | [] => .error (.alsSyntaxError 0 ("Unexpected token: " ++ reprToken .eof))
  | t :: rest =>
      match parseElement cfg t rest with
      | .error e => .error e
      | .ok (inner, ts2) =>
          match ts2 with
          | .closeParen :: ts3 =>
              match ts3 with
              | .multiplyOp :: ts4 =>
                  match expectInteger ts4 with
                  | .error e => .error e
                  | .ok (count, ts5) => .ok (.multiply inner (i64ToUsize count), ts5)
              | _ => .ok (inner, ts3)
          | other :: _ =>
              .error (.alsSyntaxError 0 ("Expected closing paren but found " ++ reprToken other))
          | [] =>
              .error (.alsSyntaxError 0 ("Expected closing paren but found " ++ reprToken .eof))
termination_by (ts.length, 0)

end

theorem expectInteger_length {ts : List Token} {n : Int} {rest : List Token}
    (h : expectInteger ts = .ok (n, rest)) : rest.length < ts.length := by
  match ts with
  | [] => simp [expectInteger] at h
  | .integer m :: r => simp [expectInteger] at h; simp [h.2.symm]
  | .version v :: r | .dictionaryHeader a b :: r | .schemaColumn a :: r
  | .float s :: r | .rawValue s :: r
  | .dictRef i :: r | .rangeOp :: r | .multiplyOp :: r | .toggleOp :: r
  | .stepSeparator :: r | .columnSeparator :: r | .openParen :: r
  | .closeParen :: r | .newline :: r | .eof :: r =>
      simp [expectInteger] at h

theorem parseToggleValues_length_aux (fuel : Nat) :
    ∀ (ts : List Token), ts.length ≤ fuel → ∀ (acc vs : List String)
      (rest : List Token), parseToggleValues acc ts = .ok (vs, rest) →
      rest.length ≤ ts.length := by
  induction fuel with
  | zero =>
      intro ts hts acc vs rest h
      have hnil : ts = [] := List.eq_nil_of_length_eq_zero (Nat.le_zero.mp hts)
      subst hnil
      simp only [parseToggleValues] at h
      simp at h
      simp [h.2.symm]
  | succ n ih =>
      intro ts hts acc vs rest h
      match ts with
      | .toggleOp :: r =>
          simp only [parseToggleValues] at h
          match hv : expectValue r with
          | .error e => rw [hv] at h; simp at h
          | .ok (v, rest2) =>
              rw [hv] at h
              simp only [] at h
              have h1 := expectValue_length hv
              simp only [List.length_cons] at hts
              have h2 := ih rest2 (by omega) (acc ++ [v]) vs rest h
              simp only [List.length_cons]
              omega
      | [] =>
          simp only [parseToggleValues] at h
          simp at h
          simp [h.2.symm]
      | .version v :: r | .dictionaryHeader a b :: r | .schemaColumn a :: r
      | .integer m :: r | .float s :: r | .rawValue s :: r
      | .dictRef i :: r | .rangeOp :: r | .multiplyOp :: r
      | .stepSeparator :: r | .columnSeparator :: r | .openParen :: r
      | .closeParen :: r | .newline :: r | .eof :: r =>
          simp only [parseToggleValues] at h
          simp at h
          simp [h.2.symm]

theorem parseToggleValues_length {acc vs : List String} {ts rest : List Token}
    (h : parseToggleValues acc ts = .ok (vs, rest)) :
    rest.length ≤ ts.length :=
  parseToggleValues_length_aux ts.length ts (Nat.le_refl _) acc vs rest h

theorem parseToggleCount_length {values : List String} {ts : List Token}
    {op : AlsOperator} {rest : List Token}
    (h : parseToggleCount values ts = .ok (op, rest)) :
    rest.length ≤ ts.length := by
  match ts with
  | .multiplyOp :: r2 =>
      simp only [parseToggleCount] at h
      match hi : expectInteger r2 with
      | .error e => rw [hi] at h; simp at h
      | .ok (count, r3) =>
          rw [hi] at h
          simp at h
          obtain ⟨hop, hrest⟩ := h
          have h2 := expectInteger_length hi
          subst hrest
          simp only [List.length_cons]
          omega
  | [] =>
      simp only [parseToggleCount] at h
      simp at h
      simp [h.2.symm]
  | .version v :: r | .dictionaryHeader a b :: r | .schemaColumn a :: r
  | .integer n :: r | .float s :: r | .rawValue s :: r
  | .dictRef i :: r | .rangeOp :: r | .toggleOp :: r
  | .stepSeparator :: r | .columnSeparator :: r | .openParen :: r
  | .closeParen :: r | .newline :: r | .eof :: r =>
      simp only [parseToggleCount] at h
      simp at h
      simp [h.2.symm]

theorem parseToggle_length {first : String} {ts : List Token}
    {op : AlsOperator} {rest : List Token}
    (h : parseToggle first ts = .ok (op, rest)) :
    rest.length ≤ ts.length := by
  rw [parseToggle] at h
  simp only [bind, Except.bind] at h
  match hv : expectValue ts with
  | .error e => rw [hv] at h; simp at h
  | .ok (second, ts1) =>
      rw [hv] at h
      simp only [] at h
      have h1 := expectValue_length hv
      match htv : parseToggleValues [first, second] ts1 with
      | .error e => rw [htv] at h; simp at h
      | .ok (values, ts2) =>
          rw [htv] at h
          simp only [] at h
          have h2 := parseToggleValues_length htv
          have h3 := parseToggleCount_length h
          omega

theorem parseRangeTail_length {rangeOp op : AlsOperator} {ts rest : List Token}
    (h : parseRangeTail rangeOp ts = .ok (op, rest)) :
    rest.length ≤ ts.length := by
  match ts with
  | .multiplyOp :: r2 =>
      simp only [parseRangeTail] at h
      match hi : expectInteger r2 with
      | .error e => rw [hi] at h; simp at h
      | .ok (count, r3) =>
          rw [hi] at h
          simp at h
          obtain ⟨hop, hrest⟩ := h
          have h2 := expectInteger_length hi
          subst hrest
          simp only [List.length_cons]
          omega
  | [] =>
      simp only [parseRangeTail] at h
      simp at h
      simp [h.2.symm]
  | .version v :: r | .dictionaryHeader a b :: r | .schemaColumn a :: r
  | .integer n :: r | .float s :: r | .rawValue s :: r
  | .dictRef i :: r | .rangeOp :: r | .toggleOp :: r
  | .stepSeparator :: r | .columnSeparator :: r | .openParen :: r
  | .closeParen :: r | .newline :: r | .eof :: r =>
      simp only [parseRangeTail] at h
      simp at h
      simp [h.2.symm]

theorem parseRange_length {cfg : ParserConfig} {start : Int} {ts : List Token}
    {op : AlsOperator} {rest : List Token}
    (h : parseRange cfg start ts = .ok (op, rest)) :
    rest.length ≤ ts.length := by
  rw [parseRange] at h
  simp only [bind, Except.bind] at h
  match hi : expectInteger ts with
  | .error e => rw [hi] at h; simp at h
  | .ok (stop, ts1) =>
      rw [hi] at h
      simp only [] at h
      have h1 := expectInteger_length hi
      match hts : ts1 with
      | .stepSeparator :: rest1 =>
          subst hts
          simp only [] at h
          match hi1 : expectInteger rest1 with
          | .error e => rw [hi1] at h; simp at h
          | .ok (step, ts2) =>
              rw [hi1] at h
              simp only [] at h
              have h2 := expectInteger_length hi1
              match hr : rangeSafeWithLimit start stop step cfg.maxRangeExpansion with
              | .error e => rw [hr] at h; simp at h
              | .ok rangeOp =>
                  rw [hr] at h
                  simp only [] at h
                  have h3 := parseRangeTail_length h
                  simp only [List.length_cons] at h1
                  omega
      | [] =>
          subst hts
          simp only [] at h
          match hr : rangeSafeWithLimit start stop (if start ≤ stop then 1 else -1)
              cfg.maxRangeExpansion with
          | .error e => rw [hr] at h; simp at h
          | .ok rangeOp =>
              rw [hr] at h
              simp only [] at h
              have h3 := parseRangeTail_length h
              simp only [List.length_nil] at h3 h1
              omega
      | .version v :: r | .dictionaryHeader a b :: r | .schemaColumn a :: r
      | .integer n :: r | .float s :: r | .rawValue s :: r
      | .dictRef i :: r | .rangeOp :: r | .multiplyOp :: r | .toggleOp :: r
      | .columnSeparator :: r | .openParen :: r
      | .closeParen :: r | .newline :: r | .eof :: r =>
          subst hts
          simp only [] at h
          match hr : rangeSafeWithLimit start stop (if start ≤ stop then 1 else -1)
              cfg.maxRangeExpansion with
          | .error e => rw [hr] at h; simp at h
          | .ok rangeOp =>
              rw [hr] at h
              simp only [] at h
              have h3 := parseRangeTail_length h
              omega

theorem parseIntegerElement_length {cfg : ParserConfig} {n : Int}
    {ts : List Token} {op : AlsOperator} {rest : List Token}
    (h : parseIntegerElement cfg n ts = .ok (op, rest)) :
    rest.length ≤ ts.length := by
  match ts with
  | .rangeOp :: r =>
      simp only [parseIntegerElement] at h
      have := parseRange_length h
      simp only [List.length_cons]
      omega
  | .multiplyOp :: r =>
      simp only [parseIntegerElement, bind, Except.bind] at h
      match hi : expectInteger r with
      | .error e => rw [hi] at h; simp at h
      | .ok (count, r2) =>
          rw [hi] at h
          simp at h
          have := expectInteger_length hi
          rw [← h.2]
          simp only [List.length_cons]
          omega
  | .toggleOp :: r =>
      simp only [parseIntegerElement] at h
      have := parseToggle_length h
      simp only [List.length_cons]
      omega
  | [] =>
      simp only [parseIntegerElement] at h
      simp at h
      simp [h.2.symm]
  | .version v :: r | .dictionaryHeader a b :: r | .schemaColumn a :: r
  | .integer m :: r | .float s :: r | .rawValue s :: r
  | .dictRef i :: r | .stepSeparator :: r | .columnSeparator :: r
  | .openParen :: r | .closeParen :: r | .newline :: r | .eof :: r =>
      simp only [parseIntegerElement] at h
      simp at h
      simp [h.2.symm]

theorem parseFloatElement_length {rendered : String}
    {ts : List Token} {op : AlsOperator} {rest : List Token}
    (h : parseFloatElement rendered ts = .ok (op, rest)) :
    rest.length ≤ ts.length := by
  match ts with
  | .multiplyOp :: r =>
      simp only [parseFloatElement, bind, Except.bind] at h
      match hi : expectInteger r with
      | .error e => rw [hi] at h; simp at h
      | .ok (count, r2) =>
          rw [hi] at h
          simp at h
          have := expectInteger_length hi
          rw [← h.2]
          simp only [List.length_cons]
          omega
  | .toggleOp :: r =>
      simp only [parseFloatElement] at h
      have := parseToggle_length h
      simp only [List.length_cons]
      omega
  | [] =>
      simp only [parseFloatElement] at h
      simp at h
      simp [h.2.symm]
  | .version v :: r | .dictionaryHeader a b :: r | .schemaColumn a :: r
  | .integer m :: r | .float s :: r | .rawValue s :: r
  | .dictRef i :: r | .rangeOp :: r | .stepSeparator :: r | .columnSeparator :: r
  | .openParen :: r | .closeParen :: r | .newline :: r | .eof :: r =>
      simp only [parseFloatElement] at h
      simp at h
      simp [h.2.symm]

theorem parseRawElement_length {value : String}
    {ts : List Token} {op : AlsOperator} {rest : List Token}
    (h : parseRawElement value ts = .ok (op, rest)) :
    rest.length ≤ ts.length := by
  match ts with
  | .multiplyOp :: r =>
      simp only [parseRawElement, bind, Except.bind] at h
      match hi : expectInteger r with
      | .error e => rw [hi] at h; simp at h
      | .ok (count, r2) =>
          rw [hi] at h
          simp at h
          have := expectInteger_length hi
          rw [← h.2]
          simp only [List.length_cons]
          omega
  | .toggleOp :: r =>
      simp only [parseRawElement] at h
      have := parseToggle_length h
      simp only [List.length_cons]
      omega
  | [] =>
      simp only [parseRawElement] at h
      simp at h
      simp [h.2.symm]
  | .version v :: r | .dictionaryHeader a b :: r | .schemaColumn a :: r
  | .integer m :: r | .float s :: r | .rawValue s :: r
  | .dictRef i :: r | .rangeOp :: r | .stepSeparator :: r | .columnSeparator :: r
  | .openParen :: r | .closeParen :: r | .newline :: r | .eof :: r =>
      simp only [parseRawElement] at h
      simp at h
      simp [h.2.symm]

theorem parseElement_length_aux (fuel : Nat) :
    ∀ (ts : List Token), ts.length ≤ fuel →
      (∀ (cfg : ParserConfig) (t : Token) (op : AlsOperator) (rest : List Token),
        parseElement cfg t ts = .ok (op, rest) → rest.length ≤ ts.length) ∧
      (∀ (cfg : ParserConfig) (op : AlsOperator) (rest : List Token),
        parseGroupedElement cfg ts = .ok (op, rest) → rest.length ≤ ts.length) := by
  induction fuel with
  | zero =>
      intro ts hts
      have hnil : ts = [] := List.eq_nil_of_length_eq_zero (Nat.le_zero.mp hts)
      subst hnil
      constructor
      · intro cfg t op rest h
        match t with
        | .integer n =>
            simp only [parseElement] at h
            exact parseIntegerElement_length h
        | .float s =>
            simp only [parseElement] at h
            exact parseFloatElement_length h
        | .rawValue s =>
            simp only [parseElement] at h
            exact parseRawElement_length h
        | .dictRef i =>
            simp only [parseElement] at h
            simp at h
            simp [h.2.symm]
        | .openParen =>
            rw [parseElement, parseGroupedElement] at h
            simp at h
        | .version v | .dictionaryHeader a b | .schemaColumn a
        | .rangeOp | .multiplyOp | .toggleOp | .stepSeparator
        | .columnSeparator | .closeParen | .newline | .eof =>
            simp only [parseElement] at h
            simp at h
      · intro cfg op rest h
        rw [parseGroupedElement] at h
        simp at h
  | succ n ih =>
      intro ts hts
      have hgrouped : ∀ (cfg : ParserConfig) (op : AlsOperator) (rest : List Token),
          parseGroupedElement cfg ts = .ok (op, rest) → rest.length ≤ ts.length := by
        intro cfg op rest h
        match ts with
        | [] => rw [parseGroupedElement] at h; simp at h
        | t :: r =>
            rw [parseGroupedElement] at h
            simp only [List.length_cons] at hts
            have hel := (ih r (by omega)).1 cfg
            match hpe : parseElement cfg t r with
            | .error e => rw [hpe] at h; simp at h
            | .ok (inner, ts2) =>
                rw [hpe] at h
                simp only [] at h
                have h1 := hel t inner ts2 hpe
                match ts2 with
                | .closeParen :: ts3 =>
                    simp only [] at h
                    simp only [List.length_cons] at h1
                    match ts3 with
                    | .multiplyOp :: ts4 =>
                        simp only [] at h
                        match hi : expectInteger ts4 with
                        | .error e => rw [hi] at h; simp at h
                        | .ok (count, ts5) =>
                            rw [hi] at h
                            simp at h
                            have h2 := expectInteger_length hi
                            rw [← h.2]
                            simp only [List.length_cons] at h1
                            simp only [List.length_cons]
                            omega
                    | [] =>
                        simp at h
                        rw [h.2]
                        simp only [List.length_nil, List.length_cons]
                        omega
                    | .version v :: r3 | .dictionaryHeader a b :: r3
                    | .schemaColumn a :: r3 | .integer m :: r3 | .float s :: r3
                    | .rawValue s :: r3 | .dictRef i :: r3 | .rangeOp :: r3
                    | .toggleOp :: r3 | .stepSeparator :: r3
                    | .columnSeparator :: r3 | .openParen :: r3
                    | .closeParen :: r3 | .newline :: r3 | .eof :: r3 =>
                        simp at h
                        rw [← h.2]
                        simp only [List.length_cons] at h1 ⊢
                        omega
                | [] => simp at h
                | .version v :: r2 | .dictionaryHeader a b :: r2
                | .schemaColumn a :: r2 | .integer m :: r2 | .float s :: r2
                | .rawValue s :: r2 | .dictRef i :: r2 | .rangeOp :: r2
                | .multiplyOp :: r2 | .toggleOp :: r2 | .stepSeparator :: r2
                | .columnSeparator :: r2 | .openParen :: r2
                | .newline :: r2 | .eof :: r2 =>
                    simp at h
      refine ⟨?_, hgrouped⟩
      intro cfg t op rest h
      match t with
      | .integer m =>
          simp only [parseElement] at h
          exact parseIntegerElement_length h
      | .float s =>
          simp only [parseElement] at h
          exact parseFloatElement_length h
      | .rawValue s =>
          simp only [parseElement] at h
          exact parseRawElement_length h
      | .dictRef i =>
          simp only [parseElement] at h
          simp at h
          simp [h.2.symm]
      | .openParen =>
          rw [parseElement] at h
          exact hgrouped cfg op rest h
      | .version v | .dictionaryHeader a b | .schemaColumn a
      | .rangeOp | .multiplyOp | .toggleOp | .stepSeparator
      | .columnSeparator | .closeParen | .newline | .eof =>
          simp only [parseElement] at h
          simp at h

theorem parseElement_length {cfg : ParserConfig} {t : Token} {ts : List Token}
    {op : AlsOperator} {rest : List Token}
    (h : parseElement cfg t ts = .ok (op, rest)) : rest.length ≤ ts.length :=
  (parseElement_length_aux ts.length ts (Nat.le_refl _)).1 cfg t op rest h

/-- The stream-collection loop of AlsParser::parse_streams (parser.rs
lines 110-136): consume tokens, splitting streams at column separators,
skipping newlines, parsing elements otherwise.  At end of input the
pending stream is saved only when it is non-empty or no stream has been
collected yet. -/
def parseStreamsLoop (cfg : ParserConfig) (ts : List Token)
    (streams : List (List AlsOperator)) (current : List AlsOperator) :
    Except AlsError (List (List AlsOperator)) :=
  match ts with
  | [] =>
      if current ≠ [] ∨ streams = [] then .ok (streams ++ [current])
      else .ok streams
  | .eof :: _ =>
      if current ≠ [] ∨ streams = [] then .ok (streams ++ [current])
      else .ok streams
  | .columnSeparator :: rest => parseStreamsLoop cfg rest (streams ++ [current]) []
  | .newline :: rest => parseStreamsLoop cfg rest streams current
  | t :: rest =>
      match hpe : parseElement cfg t rest with
      | .error e => .error e
      | .ok (op, rest2) => parseStreamsLoop cfg rest2 streams (current ++ [op])
termination_by ts.length
decreasing_by
  all_goals simp
  all_goals try omega
  all_goals (have hlen := parseElement_length hpe; omega)

/-- Parse the column streams and validate the column count
(AlsParser::parse_streams, parser.rs lines 106-147). -/
def parseStreams (cfg : ParserConfig) (ts : List Token)
    (expectedColumns : Nat) : Except AlsError (List (List AlsOperator)) :=
  match parseStreamsLoop cfg ts [] [] with
  | .error e => .error e
  | .ok streams =>
      if streams.length ≠ expectedColumns ∧ 0 < expectedColumns then
        .error (.columnMismatch expectedColumns streams.length)
      else .ok streams

/-- Skip newline tokens (AlsParser::skip_whitespace_tokens, parser.rs
lines 93-103). -/
def skipNewlines : List Token → List Token
  | .newline :: rest => skipNewlines rest
  | ts => ts

theorem skipNewlines_length_le (ts : List Token) :
    (skipNewlines ts).length ≤ ts.length := by
  match ts with
  | .newline :: rest =>
      rw [skipNewlines]
      have := skipNewlines_length_le rest
      simp only [List.length_cons]
      omega
  | [] => simp [skipNewlines]
  | .version v :: r | .dictionaryHeader a b :: r | .schemaColumn a :: r
  | .integer m :: r | .float s :: r | .rawValue s :: r
  | .dictRef i :: r | .rangeOp :: r | .multiplyOp :: r | .toggleOp :: r
  | .stepSeparator :: r | .columnSeparator :: r | .openParen :: r
  | .closeParen :: r | .eof :: r =>
      simp only [skipNewlines]
      exact Nat.le_refl _

theorem skipNewlines_subset {t : Token} {ts : List Token}
    (h : t ∈ skipNewlines ts) : t ∈ ts := by
  match ts with
  | .newline :: rest =>
      rw [skipNewlines] at h
      exact List.mem_cons_of_mem _ (skipNewlines_subset h)
  | [] => simpa [skipNewlines] using h
  | .version v :: r | .dictionaryHeader a b :: r | .schemaColumn a :: r
  | .integer m :: r | .float s :: r | .rawValue s :: r
  | .dictRef i :: r | .rangeOp :: r | .multiplyOp :: r | .toggleOp :: r
  | .stepSeparator :: r | .columnSeparator :: r | .openParen :: r
  | .closeParen :: r | .eof :: r =>
      simpa only [skipNewlines] using h

/-- Format indicator of a document (als/document.rs FormatIndicator):
full ALS, or the columnar-text fallback. -/
inductive FormatIndicator where
  | als
  | ctx
deriving DecidableEq

/-- Insertion into the ordered dictionary map of a document: replace the
value of an existing key in place, otherwise append. -/
def insertDict (m : List (String × List String)) (k : String)
    (v : List String) : List (String × List String) :=
  match m with
  | [] => [(k, v)]
  | (k0, v0) :: rest =>
      if k0 = k then (k0, v) :: rest else (k0, v0) :: insertDict rest k v

/-- Document model (als/document.rs AlsDocument, modelled from spec
section 3): version, format indicator, ordered dictionaries, schema,
and one operator stream per column. -/
structure AlsDocument where
  version : Nat
  formatIndicator : FormatIndicator
  dictionaries : List (String × List String)
  schema : List String
  streams : List (List AlsOperator)
deriving DecidableEq

/-- Lookup of the conventional default dictionary
(AlsDocument::default_dictionary, modelled from spec section 3). -/
def AlsDocument.defaultDictionary (doc : AlsDocument) :
    Option (List String) :=
  (doc.dictionaries.find? (fun p => p.1 == "default")).map (fun p => p.2)

/-- The optional version phase of AlsParser::parse_document (parser.rs
lines 47-67): peek for a version token; an ALS version above the maximum
supported one is a VersionMismatch; CTX switches the format indicator.
With no version token the document keeps the defaults of
AlsDocument::new, version 1 and indicator ALS. -/
def parseVersionPhase (ts : List Token) :
    Except AlsError (Nat × FormatIndicator × List Token) :=
  match ts with
  | .version (.als v) :: rest =>
      if maxSupportedVersion < v then
        .error (.versionMismatch maxSupportedVersion v)
      else .ok (v, .als, skipNewlines rest)
  | .version .ctx :: rest => .ok (1, .ctx, skipNewlines rest)
  | _ => .ok (1, .als, ts)

/-- The dictionary phase of AlsParser::parse_document (parser.rs lines
70-74): consume dictionary-header tokens, inserting each into the
ordered map and skipping newlines after each. -/
def parseDictHeaders (acc : List (String × List String)) (ts : List Token) :
    List (String × List String) × List Token :=
  match ts with
  | .dictionaryHeader name values :: rest =>
      parseDictHeaders (insertDict acc name values) (skipNewlines rest)
  | _ => (acc, ts)
termination_by ts.length
decreasing_by
  have := skipNewlines_length_le rest
  simp
  omega

/-- The schema phase of AlsParser::parse_document (parser.rs lines
77-80): consume consecutive schema-column tokens. -/
def parseSchemaCols (acc : List String) (ts : List Token) :
    List String × List Token :=
  match ts with
  | .schemaColumn name :: rest => parseSchemaCols (acc ++ [name]) rest
  | _ => (acc, ts)

/-- Parse a complete ALS document from the token stream
(AlsParser::parse_document, parser.rs lines 44-90): skip leading
newlines, optional version, dictionaries, schema, then the streams --
the stream section is only parsed when the schema is non-empty. -/
def parseDocument (cfg : ParserConfig) (ts : List Token) :
    Except AlsError AlsDocument :=
  match parseVersionPhase (skipNewlines ts) with
  | .error e => .error e
  | .ok (ver, fmt, ts1) =>
      let dictsAndRest := parseDictHeaders [] ts1
      let schemaAndRest := parseSchemaCols [] dictsAndRest.2
      let ts4 := skipNewlines schemaAndRest.2
      if schemaAndRest.1.isEmpty then
        .ok ⟨ver, fmt, dictsAndRest.1, schemaAndRest.1, []⟩
      else
        match parseStreams cfg ts4 schemaAndRest.1.length with
        | .error e => .error e
        | .ok streams => .ok ⟨ver, fmt, dictsAndRest.1, schemaAndRest.1, streams⟩

/-- Modelled from the spec: the value list a Range operator materialises
(als/operator.rs is not among the sources; spec section 4.5): the
arithmetic progression from start in the direction of step, inclusive of
stop when reachable, stopping at the last value not past stop.  A step
of zero or a step pointing away from stop yields no values; such ranges
are unconstructible through range_safe_with_limit. -/
def rangeValues (start stop step : Int) : List String :=
  if step = 0 then []
  else if (0 < step ∧ start ≤ stop) ∨ (step < 0 ∧ stop ≤ start) then
    (List.range (rangeCount start stop step)).map
      (fun i => toString (start + step * (i : Int)))
  else []

/-- Modelled from the spec: operator expansion (als/operator.rs is not
among the sources; spec section 4.5): raw yields its literal; a
dictionary reference resolves in the dictionary or fails with
InvalidDictRef (size 0 with no dictionary); a range materialises its
progression; multiply repeats its child; toggle cycles through its
values. -/
def expandOp (op : AlsOperator) (dict : Option (List String)) :
    Except AlsError (List String) :=
  match op with
  | .raw s => .ok [s]
  | .dictRef i =>
      match dict with
      | none => .error (.invalidDictRef i 0)
      | some d =>
          if i < d.length then .ok [d.getD i ""]
          else .error (.invalidDictRef i d.length)
  | .range start stop step => .ok (rangeValues start stop step)
  | .multiply v n =>
      match expandOp v dict with
      | .error e => .error e
      | .ok inner => .ok (List.join (List.replicate n inner))
  | .toggle vs n =>
      .ok ((List.range n).map (fun i => vs.getD (i % vs.length) ""))

/-- Modelled from the spec: ColumnStream::expand (als/document.rs is not
among the sources; spec sections 3 and 4.5): concatenation of the
expansions of the operators of the stream, propagating the first
error. -/
def expandStream (ops : List AlsOperator) (dict : Option (List String)) :
    Except AlsError (List String) :=
  match ops with
  | [] => .ok []
  | op :: rest =>
      match expandOp op dict with
      | .error e => .error e
      | .ok vs =>
          match expandStream rest dict with
          | .error e => .error e
          | .ok rest2 => .ok (vs ++ rest2)

/-- The column-expansion loop of AlsParser::expand (parser.rs lines
332-336): expand every stream, propagating the first error. -/
def expandColumns (streams : List (List AlsOperator))
    (dict : Option (List String)) : Except AlsError (List (List String)) :=
  match streams with
  | [] => .ok []
  | s :: rest =>
      match expandStream s dict with
      | .error e => .error e
      | .ok col =>
          match expandColumns rest dict with
          | .error e => .error e
          | .ok cols => .ok (col :: cols)

/-- Expand an ALS document to rows (AlsParser::expand, parser.rs lines
323-364): empty stream list yields no rows; otherwise expand all
columns, fail with ColumnMismatch at the first column whose length
differs from the first column's, and finally transpose columns to
rows. -/
def AlsParser.expand (doc : AlsDocument) :
    Except AlsError (List (List String)) :=
  if doc.streams.isEmpty then .ok []
  else
    match expandColumns doc.streams doc.defaultDictionary with
    | .error e => .error e
    | .ok cols =>
        let expectedLen := ((cols.head?).map List.length).getD 0
        match cols.find? (fun col => col.length != expectedLen) with
        | some bad => .error (.columnMismatch expectedLen bad.length)
        | none =>
            .ok ((List.range expectedLen).map
              (fun i => cols.map (fun col => col.getD i "")))

/-- Parse ALS tokens and expand directly to schema and rows
(AlsParser::parse_and_expand, parser.rs lines 367-371). -/
def AlsParser.parseAndExpand (cfg : ParserConfig) (ts : List Token) :
    Except AlsError (List String × List (List String)) :=
  match parseDocument cfg ts with
  | .error e => .error e
  | .ok doc =>
      match AlsParser.expand doc with
      | .error e => .error e
      | .ok rows => .ok (doc.schema, rows)

/-- Pattern-type tag of a detection result (pattern/detector.rs
PatternType, modelled from spec section 4.6). -/
inductive PatternType where
  | rangePat
  | togglePat
  | repeatPat
  | runPat
  | rawPat
  | repeatedRange
  | repeatedToggle
deriving DecidableEq

/-- Result of a pattern detector (pattern/detector.rs DetectionResult):
the chosen operator, the estimated compression ratio (named
compression_ratio in the source; floating point there, a rational
here), and the pattern-type tag. -/
structure DetectionResult where
  operator : AlsOperator
  ratioValue : ℚ
  patternType : PatternType
deriving DecidableEq

/-- Raw encoding cost of a value list, sum of lengths plus one separator
between neighbours (spec section 4.6;
CombinedDetector::calculate_original_length, combined.rs lines
148-152). -/
def calculateOriginalLength (values : List String) : Nat :=
  (values.map String.length).sum + (values.length - 1)

/-- Modelled from the spec: DetectionResult::repeated_range
(pattern/detector.rs is not among the sources).  The operator is the
range wrapped in a multiply; the estimated encoded cost is that of the
serialized form, open paren, range rendering (step omitted when it is
the implicit sign), close paren, star, and repeat count, and the ratio
divides the raw cost by it. -/
def DetectionResult.repeatedRangeRes (start stop step : Int)
    (repeatCount originalLen : Nat) : DetectionResult :=
  let implicitStep : Int := if start ≤ stop then 1 else -1
  let innerLen := (toString start).length + 1 + (toString stop).length +
    (if step = implicitStep then 0 else 1 + (toString step).length)
  let encodedLen := 1 + innerLen + 1 + 1 + (toString repeatCount).length
  { operator := .multiply (.range start stop step) repeatCount,
    ratioValue := Rat.divInt (originalLen : Int) (encodedLen : Int),
    patternType := .repeatedRange }

/-- Digit value of a character, by code point. -/
def charDigit (c : Char) : Option Nat :=
  if 48 ≤ c.toNat ∧ c.toNat ≤ 57 then some (c.toNat - 48) else none

/-- Accumulating decimal read of a digit list; none on a non-digit or
on no digit at all when the accumulator starts empty. -/
def digitsToNat (acc : Nat) : List Char → Option Nat
  | [] => some acc
  | c :: cs =>
      match charDigit c with
      | none => none
      | some d => digitsToNat (acc * 10 + d) cs

/-- Modelled from the spec: decimal integer parsing of a cell value (the
Rust str parse to i64 used by the detectors): an optional leading minus
followed by at least one decimal digit.  The i64 overflow bound of the
Rust parse is not modelled; no claim depends on it. -/
def parseIntValue (s : String) : Option Int :=
  match s.data with
  | [] => none
  | c :: cs =>
      if c = ('-') then
        match cs with
        | [] => none
        | _ => (digitsToNat 0 cs).map (fun n => -(n : Int))
      else (digitsToNat 0 (c :: cs)).map (fun n => (n : Int))

/-- Modelled from the spec: RangeDetector (pattern/range.rs is not among
the sources; spec section 4.6): a minimum length. -/
structure RangeDetector where
  minLength : Nat
deriving DecidableEq

/-- Whether consecutive differences of an integer list all equal the
given step. -/
def stepConsistent (ints : List Int) (step : Int) : Bool :=
  match ints with
  | a :: b :: rest => b - a == step && stepConsistent (b :: rest) step
  | _ => true

/-- Modelled from the spec: RangeDetector::detect (pattern/range.rs is
not among the sources; spec section 4.6): all values parse as integers,
the differences are a constant non-zero step, and the length is at
least the configured minimum; the estimated encoded cost is
start, range operator, stop, and the step suffix when the step is not
of magnitude one; no result is returned with ratio at most 1. -/
def RangeDetector.detect (d : RangeDetector) (values : List String) :
    Option DetectionResult :=
  if values.length < d.minLength then none
  else
    match values.mapM parseIntValue with
    | none => none
    | some ints =>
        match ints with
        | v0 :: v1 :: rest =>
            let step := v1 - v0
            if step ≠ 0 ∧ stepConsistent ints step then
              let vlast := (v1 :: rest).getLast (by simp)
              let rawCost := calculateOriginalLength values
              let encCost := (toString v0).length + 1 + (toString vlast).length +
                (if 1 < step.natAbs then 1 + (toString step).length else 0)
              let rq : ℚ := Rat.divInt (rawCost : Int) (encCost : Int)
              if 1 < rq then
                some { operator := .range v0 vlast step, ratioValue := rq,
                       patternType := .rangePat }
              else none
            else none
        | _ => none

/-- Modelled from the spec: ToggleDetector (pattern/toggle.rs is not
among the sources; spec section 4.6): a minimum length. -/
structure ToggleDetector where
  minLength : Nat
deriving DecidableEq

/-- Whether the value list is tiled by its prefix of length k,
values at i equal to values at i mod k. -/
def tilesWith (values : List String) (k : Nat) : Bool :=
  (List.range values.length).all
    (fun i => values.getD i "" == values.getD (i % k) "")

/-- Modelled from the spec: ToggleDetector::detect (pattern/toggle.rs is
not among the sources; spec section 4.6): the smallest k at least 2 and
a proper divisor of the length such that the prefix of length k tiles
the whole list; the result is the toggle of that prefix over the whole
length; the estimated encoded cost is the prefix values joined by the
toggle operator plus the trailing count; no result is returned with
ratio at most 1. -/
def ToggleDetector.detect (d : ToggleDetector) (values : List String) :
    Option DetectionResult :=
  if values.length < d.minLength then none
  else
    match (List.range values.length).find?
        (fun k => decide (2 ≤ k) && decide (values.length % k = 0) &&
          tilesWith values k) with
    | none => none
    | some k =>
        let prefixVals := values.take k
        let rawCost := calculateOriginalLength values
        let encCost := (prefixVals.map String.length).sum + (k - 1) + 1 +
          (toString values.length).length
        let rq : ℚ := Rat.divInt (rawCost : Int) (encCost : Int)
        if 1 < rq then
          some { operator := .toggle prefixVals values.length,
                 ratioValue := rq, patternType := .togglePat }
        else none

/-- Detector for combined patterns (CombinedDetector, combined.rs lines
15-30), holding the configured minimum pattern length and the two
sub-detectors. -/
structure CombinedDetector where
  minPatternLength : Nat
  rangeDetector : RangeDetector
  toggleDetector : ToggleDetector
deriving DecidableEq

/-- Constructor of the combined detector (CombinedDetector::new,
combined.rs lines 24-30): sub-detectors allow length-2 patterns. -/
def CombinedDetector.new (minPatternLength : Nat) : CombinedDetector :=
  { minPatternLength := minPatternLength,
    rangeDetector := { minLength := 2 },
    toggleDetector := { minLength := 2 } }

/-- Whether the value list is the concatenation of identical chunks of
the given length (the repeat check of combined.rs lines 51-61). -/
def isRepeatedPattern (values : List String) (patternLen : Nat) : Bool :=
  (List.range (values.length / patternLen)).all
    (fun i => (values.drop (i * patternLen)).take patternLen ==
      values.take patternLen)

/-- Candidate pattern lengths tried by the combined detector, from 2 to
half the value count inclusive (the loop ranges of combined.rs lines 41
and 91). -/
def patternLens (n : Nat) : List Nat := (List.range (n / 2 + 1)).drop 2

/-- The pattern-length loop of CombinedDetector::detect_repeated_range
(combined.rs lines 41-76): for the first divisor length whose chunks
repeat and whose prefix the range sub-detector recognises as a range,
build the repeated-range result. -/
def CombinedDetector.repeatedRangeAux (d : CombinedDetector)
    (values : List String) : List Nat → Option DetectionResult
  | [] => none
  | pl :: restLens =>
      if values.length % pl = 0 ∧ 2 ≤ values.length / pl ∧
          isRepeatedPattern values pl then
        match RangeDetector.detect d.rangeDetector (values.take pl) with
        | some rr =>
            match rr.operator with
            | .range start stop step =>
                some (DetectionResult.repeatedRangeRes start stop step
                  (values.length / pl) (calculateOriginalLength values))
            | _ => d.repeatedRangeAux values restLens
        | none => d.repeatedRangeAux values restLens
      else d.repeatedRangeAux values restLens

/-- Detect a repeated range pattern
(CombinedDetector::detect_repeated_range, combined.rs lines 35-79):
fewer than 4 values yield nothing. -/
def CombinedDetector.detectRepeatedRange (d : CombinedDetector)
    (values : List String) : Option DetectionResult :=
  if values.length < 4 then none
  else d.repeatedRangeAux values (patternLens values.length)

/-- The pattern-length loop of CombinedDetector::detect_repeated_toggle
(combined.rs lines 91-145): for the first divisor length whose chunks
repeat and whose prefix the toggle sub-detector recognises, build a
multiply of the prefix toggle.  The source estimates the compressed
length with the f64 expression 10.0 + log10(repeat count) + 1.0; the
embedding uses the Nat base-10 logarithm, preserving positivity. -/
def CombinedDetector.repeatedToggleAux (d : CombinedDetector)
    (values : List String) : List Nat → Option DetectionResult
  | [] => none
  | pl :: restLens =>
      if values.length % pl = 0 ∧ 2 ≤ values.length / pl ∧
          isRepeatedPattern values pl then
        match ToggleDetector.detect d.toggleDetector (values.take pl) with
        | some tr =>
            match tr.operator with
            | .toggle toggleValues _ =>
                let repeatCount := values.length / pl
                let originalLen := calculateOriginalLength values
                let compressedLen : Nat := 10 + Nat.log 10 repeatCount + 1
                some { operator := .multiply (.toggle toggleValues pl) repeatCount,
                       ratioValue := Rat.divInt (originalLen : Int) (compressedLen : Int),
                       patternType := .repeatedToggle }
            | _ => d.repeatedToggleAux values restLens
        | none => d.repeatedToggleAux values restLens
      else d.repeatedToggleAux values restLens

/-- Detect a repeated toggle pattern
(CombinedDetector::detect_repeated_toggle, combined.rs lines 85-145):
fewer than 4 values yield nothing. -/
def CombinedDetector.detectRepeatedToggle (d : CombinedDetector)
    (values : List String) : Option DetectionResult :=
  if values.length < 4 then none
  else d.repeatedToggleAux values (patternLens values.length)

/-- Whether a candidate result beats the current best (the map_or
comparison of combined.rs lines 166 and 175). -/
def beatsBest (r : DetectionResult) : Option DetectionResult → Bool
  | none => true
  | some b => decide (b.ratioValue < r.ratioValue)

/-- One best-result update of CombinedDetector::detect (the repeated
if-let block of combined.rs lines 164-179): a candidate replaces the
best result when its ratio is strictly above 1 and beats the current
best. -/
def detectStep (candidate best : Option DetectionResult) :
    Option DetectionResult :=
  match candidate with
  | some r =>
      if decide (1 < r.ratioValue) && beatsBest r best then some r else best
  | none => best

/-- Combined detection (the PatternDetector impl of CombinedDetector,
combined.rs lines 155-183): below the configured minimum pattern length
nothing is detected; otherwise the repeated-range and repeated-toggle
results update the best result in turn. -/
def CombinedDetector.detect (d : CombinedDetector) (values : List String) :
    Option DetectionResult :=
  if values.length < d.minPatternLength then none
  else
    detectStep (d.detectRepeatedToggle values)
      (detectStep (d.detectRepeatedRange values) none)

theorem parseStreamsLoop_step (cfg : ParserConfig) (t : Token)
    (rest : List Token) (streams : List (List AlsOperator))
    (current : List AlsOperator)
    (h1 : t ≠ .eof) (h2 : t ≠ .columnSeparator) (h3 : t ≠ .newline) :
    parseStreamsLoop cfg (t :: rest) streams current =
      match parseElement cfg t rest with
      | .error e => .error e
      | .ok (op, rest2) => parseStreamsLoop cfg rest2 streams (current ++ [op]) := by
  match t with
  | .eof => exact absurd rfl h1
  | .columnSeparator => exact absurd rfl h2
  | .newline => exact absurd rfl h3
  | .version v | .dictionaryHeader a b | .schemaColumn a
  | .integer n | .float s | .rawValue s | .dictRef i
  | .rangeOp | .multiplyOp | .toggleOp | .stepSeparator
  | .openParen | .closeParen =>
      rw [parseStreamsLoop]
      · split
        next e heq => rw [heq]
        next op rest2 heq => rw [heq]
      all_goals simp

theorem parseRangeTail_not_mul {rangeOp : AlsOperator} {ts : List Token}
    (h : ts.head? ≠ some Token.multiplyOp) :
    parseRangeTail rangeOp ts = .ok (rangeOp, ts) := by
  match ts with
  | .multiplyOp :: r => simp at h
  | [] => rfl
  | .version v :: r | .dictionaryHeader a b :: r | .schemaColumn a :: r
  | .integer n :: r | .float s :: r | .rawValue s :: r
  | .dictRef i :: r | .rangeOp :: r | .toggleOp :: r
  | .stepSeparator :: r | .columnSeparator :: r | .openParen :: r
  | .closeParen :: r | .newline :: r | .eof :: r => rfl

theorem parseToggleCount_not_mul {values : List String} {ts : List Token}
    (h : ts.head? ≠ some Token.multiplyOp) :
    parseToggleCount values ts = .ok (.toggle values values.length, ts) := by
  match ts with
  | .multiplyOp :: r => simp at h
  | [] => rfl
  | .version v :: r | .dictionaryHeader a b :: r | .schemaColumn a :: r
  | .integer n :: r | .float s :: r | .rawValue s :: r
  | .dictRef i :: r | .rangeOp :: r | .toggleOp :: r
  | .stepSeparator :: r | .columnSeparator :: r | .openParen :: r
  | .closeParen :: r | .newline :: r | .eof :: r => rfl

theorem parseToggleValues_not_toggle {acc : List String} {ts : List Token}
    (h : ts.head? ≠ some Token.toggleOp) :
    parseToggleValues acc ts = .ok (acc, ts) := by
  match ts with
  | .toggleOp :: r => simp at h
  | [] => rw [parseToggleValues] <;> simp
  | .version v :: r | .dictionaryHeader a b :: r | .schemaColumn a :: r
  | .integer n :: r | .float s :: r | .rawValue s :: r
  | .dictRef i :: r | .rangeOp :: r | .multiplyOp :: r
  | .stepSeparator :: r | .columnSeparator :: r | .openParen :: r
  | .closeParen :: r | .newline :: r | .eof :: r => rw [parseToggleValues] <;> simp

/-- Token encoding of the tail values of a toggle expression, a toggle
operator before each further value. -/
def toggleTailTokens (vs : List String) : List Token :=
  vs.bind (fun v => [Token.toggleOp, Token.rawValue v])

theorem parseToggleValues_encode (vs : List String) :
    ∀ (acc : List String) (rest : List Token),
      rest.head? ≠ some Token.toggleOp →
      parseToggleValues acc (toggleTailTokens vs ++ rest) =
        .ok (acc ++ vs, rest) := by
  induction vs with
  | nil =>
      intro acc rest h
      simp only [toggleTailTokens, List.bind, List.nil_bind, List.nil_append]
      rw [parseToggleValues_not_toggle h]
      simp
  | cons v vs ih =>
      intro acc rest h
      have hunfold : toggleTailTokens (v :: vs) ++ rest =
          Token.toggleOp :: Token.rawValue v :: (toggleTailTokens vs ++ rest) := rfl
      rw [hunfold, parseToggleValues]
      simp only [expectValue]
      rw [ih (acc ++ [v]) rest h]
      simp

theorem i64ToUsize_of_nonneg {n : Int} (h0 : 0 ≤ n) (h1 : n < 2 ^ 64) :
    i64ToUsize n = n.toNat := by
  rw [i64ToUsize]
  omega

theorem rangeSafe_implicit_ok (s e : Int)
    (h : (e - s).natAbs < 10000) :
    rangeSafeWithLimit s e (if s ≤ e then 1 else -1) 10000 =
      .ok (.range s e (if s ≤ e then 1 else -1)) := by
  by_cases hle : s ≤ e
  · rw [if_pos hle]
    rw [rangeSafeWithLimit]
    rw [if_neg (by omega)]
    rw [if_neg (by unfold fitsI64; omega)]
    rw [if_neg (by omega)]
    rw [if_neg (by unfold rangeCount; simp; omega)]
  · rw [if_neg hle]
    rw [rangeSafeWithLimit]
    rw [if_neg (by omega)]
    rw [if_neg (by unfold fitsI64; omega)]
    rw [if_neg (by omega)]
    rw [if_neg (by unfold rangeCount; simp; omega)]

/-- C1 (counterexample): with a two-column schema and the stream section
consisting of one raw value followed by a trailing column separator and
nothing else, the claim counts two pipe-separated streams (the trailing
empty one included) and so predicts success, yet parse_streams reports
ColumnMismatch with schema 2 and data 1: the trailing empty stream is
dropped at end of input. -/
theorem c1_counterexample :
    parseStreams ParserConfig.default
      [Token.rawValue ("x"), Token.columnSeparator, Token.eof] 2 =
      .error (.columnMismatch 2 1) := by
  have hloop : parseStreamsLoop ParserConfig.default
      [Token.rawValue ("x"), Token.columnSeparator, Token.eof] [] [] =
      .ok [[AlsOperator.raw ("x")]] := by
    rw [parseStreamsLoop_step _ _ _ _ _ (by simp) (by simp) (by simp)]
    simp only [parseElement.eq_def, parseRawElement]
    rw [parseStreamsLoop, parseStreamsLoop]
    simp
  rw [parseStreams, hloop]
  simp

/-- C1 (amended): for a non-empty schema, parse_streams succeeds exactly
when the number of collected streams equals the number of schema
columns, and otherwise fails with ColumnMismatch carrying the schema
count and the stream count; however a trailing empty stream does not
count: at end of input the pending stream is kept only when it is
non-empty or when no stream has been collected yet. -/
theorem c1_theorem :
    (∀ (cfg : ParserConfig) (ts : List Token) (expected : Nat)
        (ss : List (List AlsOperator)), 0 < expected →
        parseStreams cfg ts expected = .ok ss → ss.length = expected) ∧
    (∀ (cfg : ParserConfig) (ts : List Token) (expected : Nat)
        (ss : List (List AlsOperator)), 0 < expected →
        parseStreamsLoop cfg ts [] [] = .ok ss → ss.length ≠ expected →
        parseStreams cfg ts expected =
          .error (.columnMismatch expected ss.length)) ∧
    (∀ (cfg : ParserConfig) (ss : List (List AlsOperator))
        (cur : List AlsOperator),
        parseStreamsLoop cfg [Token.eof] ss cur =
          if cur = [] ∧ ss ≠ [] then .ok ss else .ok (ss ++ [cur])) := by
  refine ⟨?_, ?_, ?_⟩
  · intro cfg ts expected ss hpos h
    rw [parseStreams] at h
    match hloop : parseStreamsLoop cfg ts [] [] with
    | .error e => rw [hloop] at h; simp at h
    | .ok ss0 =>
        rw [hloop] at h
        simp only [] at h
        by_cases hlen : ss0.length ≠ expected ∧ 0 < expected
        · rw [if_pos hlen] at h; simp at h
        · rw [if_neg hlen] at h
          simp at h
          subst h
          omega
  · intro cfg ts expected ss hpos hloop hne
    rw [parseStreams, hloop]
    simp only []
    rw [if_pos ⟨hne, hpos⟩]
  · intro cfg ss cur
    rw [parseStreamsLoop]
    by_cases hcur : cur = []
    · by_cases hss : ss = []
      · simp [hcur, hss]
      · simp [hcur, hss]
    · simp [hcur]

theorem c1_witness :
    0 < 1 ∧ ([[AlsOperator.raw ("x")]] : List (List AlsOperator)).length = 1 := by
  refine ⟨by decide, ?_⟩
  refine c1_theorem.1 ParserConfig.default
    [Token.rawValue ("x"), Token.eof] 1 [[AlsOperator.raw ("x")]]
    (by decide) ?_
  have hloop : parseStreamsLoop ParserConfig.default
      [Token.rawValue ("x"), Token.eof] [] [] =
      .ok [[AlsOperator.raw ("x")]] := by
    rw [parseStreamsLoop_step _ _ _ _ _ (by simp) (by simp) (by simp)]
    simp only [parseElement.eq_def, parseRawElement]
    rw [parseStreamsLoop]
    simp
  rw [parseStreams, hloop]
  simp

/-- C3 (counterexample): a bare dictionary reference followed by the
multiply operator and an integer is not accepted: parse_element returns
the DictRef without looking ahead, and the stream loop then hits the
multiply operator as an unexpected token. -/
theorem c3_counterexample :
    parseStreams ParserConfig.default
      [Token.dictRef 0, Token.multiplyOp, Token.integer 3, Token.eof] 1 =
      .error (.alsSyntaxError 0 ("Unexpected token: MultiplyOp")) := by
  have hloop : parseStreamsLoop ParserConfig.default
      [Token.dictRef 0, Token.multiplyOp, Token.integer 3, Token.eof] [] [] =
      .error (.alsSyntaxError 0 ("Unexpected token: MultiplyOp")) := by
    rw [parseStreamsLoop_step _ _ _ _ _ (by simp) (by simp) (by simp)]
    simp only [parseElement.eq_def]
    rw [parseStreamsLoop_step _ _ _ _ _ (by simp) (by simp) (by simp)]
    simp only [parseElement.eq_def, reprToken]
    decide
  rw [parseStreams, hloop]

/-- C3 (amended): a dictionary reference directly followed by the
multiply operator is rejected with a syntax error on the multiply
token; to multiply a dictionary reference it must be grouped, and the
grouped form yields Multiply of the DictRef and the count. -/
theorem c3_theorem :
    (∀ (i : Nat), parseStreams ParserConfig.default
        [Token.dictRef i, Token.multiplyOp, Token.integer 3, Token.eof] 1 =
        .error (.alsSyntaxError 0 ("Unexpected token: MultiplyOp"))) ∧
    (∀ (i : Nat) (n : Int), 0 ≤ n → n < 2 ^ 63 →
      parseStreams ParserConfig.default
        [Token.openParen, Token.dictRef i, Token.closeParen,
          Token.multiplyOp, Token.integer n, Token.eof] 1 =
        .ok [[AlsOperator.multiply (.dictRef i) n.toNat]]) := by
  constructor
  · intro i
    have hloop : parseStreamsLoop ParserConfig.default
        [Token.dictRef i, Token.multiplyOp, Token.integer 3, Token.eof] [] [] =
        .error (.alsSyntaxError 0 ("Unexpected token: MultiplyOp")) := by
      rw [parseStreamsLoop_step _ _ _ _ _ (by simp) (by simp) (by simp)]
      simp only [parseElement.eq_def]
      rw [parseStreamsLoop_step _ _ _ _ _ (by simp) (by simp) (by simp)]
      simp only [parseElement.eq_def, reprToken]
      decide
    rw [parseStreams, hloop]
  · intro i n h0 h1
    have hcount : i64ToUsize n = n.toNat :=
      i64ToUsize_of_nonneg h0 (by omega)
    have hloop : parseStreamsLoop ParserConfig.default
        [Token.openParen, Token.dictRef i, Token.closeParen,
          Token.multiplyOp, Token.integer n, Token.eof] [] [] =
        .ok [[AlsOperator.multiply (.dictRef i) n.toNat]] := by
      rw [parseStreamsLoop_step _ _ _ _ _ (by simp) (by simp) (by simp)]
      simp only [parseElement.eq_def]
      rw [parseGroupedElement]
      simp only [parseElement.eq_def]
      simp only [expectInteger, hcount]
      rw [parseStreamsLoop]
      simp
    rw [parseStreams, hloop]
    simp

theorem c3_witness :
    (0 : Int) ≤ 3 ∧ (3 : Int) < 2 ^ 63 ∧
    parseStreams ParserConfig.default
      [Token.openParen, Token.dictRef 0, Token.closeParen,
        Token.multiplyOp, Token.integer 3, Token.eof] 1 =
      .ok [[AlsOperator.multiply (.dictRef 0) (3 : Int).toNat]] :=
  ⟨by decide, by decide, c3_theorem.2 0 3 (by decide) (by decide)⟩

/-- C4: a range expression start, range operator, stop with no step
separator yields a Range whose step is the sign of (stop - start): 1
when stop is at least start (equality included), otherwise -1 (within
the default expansion cap). -/
theorem c4_theorem :
    ∀ (s e : Int) (rest : List Token),
      rest.head? ≠ some Token.stepSeparator →
      rest.head? ≠ some Token.multiplyOp →
      (e - s).natAbs < 10000 →
      parseIntegerElement ParserConfig.default s
        (Token.rangeOp :: Token.integer e :: rest) =
        .ok (.range s e (if s ≤ e then 1 else -1), rest) := by
  intro s e rest h1 h2 h3
  match rest with
  | .stepSeparator :: r => simp at h1
  | .multiplyOp :: r => simp at h2
  | [] =>
      simp only [parseIntegerElement]
      rw [parseRange]
      simp only [bind, Except.bind, expectInteger]
      rw [show ParserConfig.default.maxRangeExpansion = 10000 from rfl]
      rw [rangeSafe_implicit_ok s e h3]
      simp only []
      rw [parseRangeTail_not_mul (by simp)]
  | .version v :: r | .dictionaryHeader a b :: r | .schemaColumn a :: r
  | .integer m :: r | .float str :: r | .rawValue str :: r
  | .dictRef i :: r | .rangeOp :: r | .toggleOp :: r
  | .columnSeparator :: r | .openParen :: r
  | .closeParen :: r | .newline :: r | .eof :: r =>
      simp only [parseIntegerElement]
      rw [parseRange]
      simp only [bind, Except.bind, expectInteger]
      rw [show ParserConfig.default.maxRangeExpansion = 10000 from rfl]
      rw [rangeSafe_implicit_ok s e h3]
      simp only []
      rw [parseRangeTail_not_mul (by simp)]

theorem c4_witness :
    (some Token.eof ≠ some Token.stepSeparator) ∧
    (some Token.eof ≠ some Token.multiplyOp) ∧
    ((3 - 5 : Int).natAbs < 10000) ∧
    parseIntegerElement ParserConfig.default 5
      [Token.rangeOp, Token.integer 3, Token.eof] =
      .ok (.range 5 3 (if (5 : Int) ≤ 3 then 1 else -1), [Token.eof]) :=
  ⟨by decide, by decide, by decide,
    c4_theorem 5 3 [Token.eof] (by decide) (by decide) (by decide)⟩

theorem toggleFullCycle (vs : List String) :
    (List.range vs.length).map (fun i => vs.getD (i % vs.length) ("")) = vs := by
  apply List.ext_getElem
  · simp
  · intro i h1 h2
    simp only [List.getElem_map, List.getElem_range]
    rw [Nat.mod_eq_of_lt h2]
    exact List.getD_eq_getElem vs ("") h2

/-- C5: a toggle expression with k values and no trailing count parses
to Toggle with count k, one full cycle, and the expansion of such a
toggle is exactly its value list in order. -/
theorem c5_theorem :
    (∀ (first second : String) (vs : List String) (rest : List Token),
      rest.head? ≠ some Token.toggleOp →
      rest.head? ≠ some Token.multiplyOp →
      parseToggle first
          (Token.rawValue second :: (toggleTailTokens vs ++ rest)) =
        .ok (.toggle (first :: second :: vs)
          (first :: second :: vs).length, rest)) ∧
    (∀ (values : List String) (dict : Option (List String)),
      expandOp (.toggle values values.length) dict = .ok values) := by
  constructor
  · intro first second vs rest h1 h2
    rw [parseToggle]
    simp only [bind, Except.bind, expectValue]
    rw [parseToggleValues_encode vs [first, second] rest h1]
    simp only []
    rw [parseToggleCount_not_mul h2]
    simp
  · intro values dict
    simp only [expandOp]
    rw [toggleFullCycle]

theorem c5_witness :
    ((([] : List Token).head? ≠ some Token.toggleOp) ∧
     (([] : List Token).head? ≠ some Token.multiplyOp) ∧
     parseToggle ("T") [Token.rawValue ("F")] =
       .ok (.toggle [("T"), ("F")] 2, [])) ∧
    expandOp (.toggle [("T"), ("F"), ("G")] 3) none =
      .ok [("T"), ("F"), ("G")] := by
  refine ⟨⟨by decide, by decide, ?_⟩, ?_⟩
  · have h := c5_theorem.1 ("T") ("F") [] [] (by decide) (by decide)
    simpa [toggleTailTokens] using h
  · have h := c5_theorem.2 [("T"), ("F"), ("G")] none
    simpa using h

/-- C6: a grouped element followed by the multiply operator and an
integer binds the count to the whole inner element; in particular the
grouped range times two and the bare range times two both parse to
Multiply of Range 1 3 1 with count 2, which expands to
1, 2, 3, 1, 2, 3. -/
theorem c6_theorem :
    (∀ (cfg : ParserConfig) (t : Token) (ts : List Token)
        (inner : AlsOperator) (n : Int) (rest : List Token),
      parseElement cfg t ts =
        .ok (inner, Token.closeParen :: Token.multiplyOp ::
          Token.integer n :: rest) →
      parseGroupedElement cfg (t :: ts) =
        .ok (.multiply inner (i64ToUsize n), rest)) ∧
    parseStreams ParserConfig.default
      [Token.openParen, Token.integer 1, Token.rangeOp, Token.integer 3,
        Token.closeParen, Token.multiplyOp, Token.integer 2, Token.eof] 1 =
      .ok [[AlsOperator.multiply (.range 1 3 1) 2]] ∧
    parseStreams ParserConfig.default
      [Token.integer 1, Token.rangeOp, Token.integer 3,
        Token.multiplyOp, Token.integer 2, Token.eof] 1 =
      .ok [[AlsOperator.multiply (.range 1 3 1) 2]] ∧
    expandStream [AlsOperator.multiply (.range 1 3 1) 2] none =
      .ok [("1"), ("2"), ("3"), ("1"), ("2"), ("3")] := by
  refine ⟨?_, ?_, ?_, ?_⟩
  · intro cfg t ts inner n rest h
    rw [parseGroupedElement, h]
    simp only [expectInteger]
  · have hloop : parseStreamsLoop ParserConfig.default
        [Token.openParen, Token.integer 1, Token.rangeOp, Token.integer 3,
          Token.closeParen, Token.multiplyOp, Token.integer 2, Token.eof]
        [] [] = .ok [[AlsOperator.multiply (.range 1 3 1) 2]] := by
      rw [parseStreamsLoop_step _ _ _ _ _ (by simp) (by simp) (by simp)]
      simp only [parseElement.eq_def]
      rw [parseGroupedElement]
      simp only [parseElement.eq_def, parseIntegerElement]
      rw [parseRange]
      simp only [bind, Except.bind, expectInteger]
      rw [show ParserConfig.default.maxRangeExpansion = 10000 from rfl]
      rw [rangeSafe_implicit_ok 1 3 (by decide)]
      simp only [parseRangeTail, expectInteger]
      rw [show i64ToUsize 2 = 2 from by decide]
      simp only [show (if (1 : Int) ≤ 3 then (1 : Int) else -1) = 1 from by norm_num]
      rw [parseStreamsLoop]
      simp
    rw [parseStreams, hloop]
    simp
  · have hloop : parseStreamsLoop ParserConfig.default
        [Token.integer 1, Token.rangeOp, Token.integer 3,
          Token.multiplyOp, Token.integer 2, Token.eof]
        [] [] = .ok [[AlsOperator.multiply (.range 1 3 1) 2]] := by
      rw [parseStreamsLoop_step _ _ _ _ _ (by simp) (by simp) (by simp)]
      simp only [parseElement.eq_def, parseIntegerElement]
      rw [parseRange]
      simp only [bind, Except.bind, expectInteger]
      rw [show ParserConfig.default.maxRangeExpansion = 10000 from rfl]
      rw [rangeSafe_implicit_ok 1 3 (by decide)]
      simp only [parseRangeTail, expectInteger]
      rw [show i64ToUsize 2 = 2 from by decide]
      simp only [show (if (1 : Int) ≤ 3 then (1 : Int) else -1) = 1 from by norm_num]
      rw [parseStreamsLoop]
      simp
    rw [parseStreams, hloop]
    simp
  · decide

theorem c6_witness :
    parseElement ParserConfig.default (Token.integer 1)
      [Token.rangeOp, Token.integer 3, Token.closeParen,
        Token.multiplyOp, Token.integer 2, Token.eof] =
      .ok (.range 1 3 1, Token.closeParen :: Token.multiplyOp ::
        Token.integer 2 :: [Token.eof]) ∧
    parseGroupedElement ParserConfig.default
      (Token.integer 1 :: [Token.rangeOp, Token.integer 3,
        Token.closeParen, Token.multiplyOp, Token.integer 2, Token.eof]) =
      .ok (.multiply (.range 1 3 1) (i64ToUsize 2), [Token.eof]) := by
  have hel : parseElement ParserConfig.default (Token.integer 1)
      [Token.rangeOp, Token.integer 3, Token.closeParen,
        Token.multiplyOp, Token.integer 2, Token.eof] =
      .ok (.range 1 3 1, Token.closeParen :: Token.multiplyOp ::
        Token.integer 2 :: [Token.eof]) := by
    simp only [parseElement.eq_def, parseIntegerElement]
    rw [parseRange]
    simp only [bind, Except.bind, expectInteger]
    rw [show ParserConfig.default.maxRangeExpansion = 10000 from rfl]
    rw [rangeSafe_implicit_ok 1 3 (by decide)]
    simp only [show (if (1 : Int) ≤ 3 then (1 : Int) else -1) = 1 from by norm_num]
    rw [parseRangeTail_not_mul (by decide)]
  exact ⟨hel, c6_theorem.1 ParserConfig.default (Token.integer 1)
    [Token.rangeOp, Token.integer 3, Token.closeParen,
      Token.multiplyOp, Token.integer 2, Token.eof]
    (.range 1 3 1) 2 [Token.eof] hel⟩

theorem parseVersionPhase_no_version {ts : List Token}
    (h : ∀ v, Token.version v ∉ ts) :
    parseVersionPhase ts = .ok (1, .als, ts) := by
  match ts with
  | Token.version (VersionType.als v) :: rest =>
      exact absurd (List.mem_cons_self _ _) (h (VersionType.als v))
  | Token.version VersionType.ctx :: rest =>
      exact absurd (List.mem_cons_self _ _) (h VersionType.ctx)
  | [] => rfl
  | .dictionaryHeader a b :: r | .schemaColumn a :: r
  | .integer n :: r | .float s :: r | .rawValue s :: r
  | .dictRef i :: r | .rangeOp :: r | .multiplyOp :: r | .toggleOp :: r
  | .stepSeparator :: r | .columnSeparator :: r | .openParen :: r
  | .closeParen :: r | .newline :: r | .eof :: r => rfl

theorem parseVersionPhase_ok {ts : List Token}
    (h : ∀ d, Token.version (VersionType.als d) ∈ ts → d ≤ 1) :
    ∃ ver fmt rest, parseVersionPhase ts = .ok (ver, fmt, rest) ∧
      ∀ t, t ∈ rest → t ∈ ts := by
  match ts with
  | Token.version (VersionType.als v) :: rest =>
      have hv : v ≤ 1 := h v (List.mem_cons_self _ _)
      refine ⟨v, .als, skipNewlines rest, ?_, ?_⟩
      · rw [parseVersionPhase]
        rw [if_neg (by simp only [maxSupportedVersion]; omega)]
      · intro t ht
        exact List.mem_cons_of_mem _ (skipNewlines_subset ht)
  | Token.version VersionType.ctx :: rest =>
      refine ⟨1, .ctx, skipNewlines rest, rfl, ?_⟩
      intro t ht
      exact List.mem_cons_of_mem _ (skipNewlines_subset ht)
  | [] => exact ⟨1, .als, [], rfl, fun t ht => ht⟩
  | .dictionaryHeader a b :: r | .schemaColumn a :: r
  | .integer n :: r | .float s :: r | .rawValue s :: r
  | .dictRef i :: r | .rangeOp :: r | .multiplyOp :: r | .toggleOp :: r
  | .stepSeparator :: r | .columnSeparator :: r | .openParen :: r
  | .closeParen :: r | .newline :: r | .eof :: r =>
      exact ⟨1, .als, _, rfl, fun t ht => ht⟩

theorem parseDictHeaders_subset_aux (fuel : Nat) :
    ∀ (ts : List Token), ts.length ≤ fuel →
      ∀ (acc : List (String × List String)) (t : Token),
        t ∈ (parseDictHeaders acc ts).2 → t ∈ ts := by
  induction fuel with
  | zero =>
      intro ts hts acc t h
      have hnil : ts = [] := List.eq_nil_of_length_eq_zero (Nat.le_zero.mp hts)
      subst hnil
      rw [parseDictHeaders] at h
      · exact h
      all_goals simp
  | succ n ih =>
      intro ts hts acc t h
      match ts with
      | .dictionaryHeader name values :: rest =>
          rw [parseDictHeaders] at h
          have hlen : (skipNewlines rest).length ≤ n := by
            have := skipNewlines_length_le rest
            simp only [List.length_cons] at hts
            omega
          have := ih (skipNewlines rest) hlen (insertDict acc name values) t h
          exact List.mem_cons_of_mem _ (skipNewlines_subset this)
      | [] =>
          rw [parseDictHeaders] at h
          · exact h
          all_goals simp
      | .version v :: r | .schemaColumn a :: r
      | .integer m :: r | .float s :: r | .rawValue s :: r
      | .dictRef i :: r | .rangeOp :: r | .multiplyOp :: r | .toggleOp :: r
      | .stepSeparator :: r | .columnSeparator :: r | .openParen :: r
      | .closeParen :: r | .newline :: r | .eof :: r =>
          rw [parseDictHeaders] at h
          · exact h
          all_goals simp

theorem parseDictHeaders_subset {ts : List Token}
    {acc : List (String × List String)} {t : Token}
    (h : t ∈ (parseDictHeaders acc ts).2) : t ∈ ts :=
  parseDictHeaders_subset_aux ts.length ts (Nat.le_refl _) acc t h

theorem parseSchemaCols_no_schema {ts : List Token} (acc : List String)
    (h : ∀ name, Token.schemaColumn name ∉ ts) :
    parseSchemaCols acc ts = (acc, ts) := by
  match ts with
  | Token.schemaColumn name :: rest =>
      exact absurd (List.mem_cons_self _ _) (h name)
  | [] => rfl
  | .version v :: r | .dictionaryHeader a b :: r
  | .integer n :: r | .float s :: r | .rawValue s :: r
  | .dictRef i :: r | .rangeOp :: r | .multiplyOp :: r | .toggleOp :: r
  | .stepSeparator :: r | .columnSeparator :: r | .openParen :: r
  | .closeParen :: r | .newline :: r | .eof :: r => rfl

/-- C7 (counterexample): the input consisting of a two-column schema
followed by a single one-value stream has no version line, yet parse
fails with ColumnMismatch rather than succeeding. -/
theorem c7_counterexample :
    parseDocument ParserConfig.default
      [Token.schemaColumn ("a"), Token.schemaColumn ("b"),
        Token.newline, Token.integer 1, Token.eof] =
      .error (.columnMismatch 2 1) := by
  rw [parseDocument]
  simp only [skipNewlines, parseVersionPhase, parseDictHeaders,
    parseSchemaCols, List.isEmpty]
  have hloop : parseStreamsLoop ParserConfig.default
      [Token.integer 1, Token.eof] [] [] =
      .ok [[AlsOperator.raw (toString (1 : Int))]] := by
    rw [parseStreamsLoop_step _ _ _ _ _ (by simp) (by simp) (by simp)]
    simp only [parseElement.eq_def, parseIntegerElement]
    rw [parseStreamsLoop]
    simp
  rw [parseStreams, hloop]
  simp

/-- C7 (amended): a leading version line declaring a version above 1
fails with VersionMismatch carrying expected 1 and the declared
version; and every document produced from an input with no version
token has version 1 and format indicator ALS. -/
theorem c7_theorem :
    (∀ (cfg : ParserConfig) (d : Nat) (rest : List Token), 1 < d →
      parseDocument cfg (Token.version (VersionType.als d) :: rest) =
        .error (.versionMismatch 1 d)) ∧
    (∀ (cfg : ParserConfig) (ts : List Token) (doc : AlsDocument),
      (∀ v, Token.version v ∉ ts) →
      parseDocument cfg ts = .ok doc →
      doc.version = 1 ∧ doc.formatIndicator = .als) := by
  constructor
  · intro cfg d rest hd
    rw [parseDocument]
    simp only [skipNewlines, parseVersionPhase]
    rw [if_pos (by simp only [maxSupportedVersion]; omega)]
    simp [maxSupportedVersion]
  · intro cfg ts doc hv h
    have hsub : ∀ v, Token.version v ∉ skipNewlines ts := by
      intro v hm
      exact hv v (skipNewlines_subset hm)
    rw [parseDocument, parseVersionPhase_no_version hsub] at h
    simp only [] at h
    split at h
    · simp at h
      rw [← h]
      exact ⟨rfl, rfl⟩
    · split at h
      · simp at h
      · simp at h
        rw [← h]
        exact ⟨rfl, rfl⟩

theorem c7_witness :
    1 < 2 ∧ parseDocument ParserConfig.default
      [Token.version (VersionType.als 2), Token.eof] =
      .error (.versionMismatch 1 2) :=
  ⟨by decide, c7_theorem.1 ParserConfig.default 2 [Token.eof] (by decide)⟩

/-- C10 (counterexample): the input declaring version 3 and then a raw
value contains no schema column token, yet parse fails with
VersionMismatch instead of succeeding with an empty document. -/
theorem c10_counterexample :
    parseDocument ParserConfig.default
      [Token.version (VersionType.als 3), Token.rawValue ("z"), Token.eof] =
      .error (.versionMismatch 1 3) := by
  rw [parseDocument]
  simp only [skipNewlines, parseVersionPhase]
  rw [if_pos (by simp only [maxSupportedVersion]; omega)]
  simp [maxSupportedVersion]

/-- C10 (amended): an input that contains no schema column token and no
version token above the supported version parses successfully into a
document with empty schema and empty stream list, the remaining stream
content ignored; in particular no ColumnMismatch is reported. -/
theorem c10_theorem :
    ∀ (cfg : ParserConfig) (ts : List Token),
      (∀ name, Token.schemaColumn name ∉ ts) →
      (∀ d, Token.version (VersionType.als d) ∈ ts → d ≤ 1) →
      ∃ doc, parseDocument cfg ts = .ok doc ∧
        doc.schema = [] ∧ doc.streams = [] := by
  intro cfg ts hschema hver
  have hver0 : ∀ d, Token.version (VersionType.als d) ∈ skipNewlines ts →
      d ≤ 1 := fun d hm => hver d (skipNewlines_subset hm)
  obtain ⟨ver, fmt, rest, hphase, hrest⟩ := parseVersionPhase_ok hver0
  have hschema2 : ∀ name,
      Token.schemaColumn name ∉ (parseDictHeaders [] rest).2 := by
    intro name hm
    exact hschema name (skipNewlines_subset (hrest _ (parseDictHeaders_subset hm)))
  refine ⟨⟨ver, fmt, (parseDictHeaders [] rest).1, [], []⟩, ?_, rfl, rfl⟩
  rw [parseDocument, hphase]
  simp only []
  rw [parseSchemaCols_no_schema [] hschema2]
  simp

theorem c10_witness :
    ∃ doc, parseDocument ParserConfig.default
        [Token.rawValue ("z"), Token.eof] = .ok doc ∧
      doc.schema = [] ∧ doc.streams = [] :=
  c10_theorem ParserConfig.default [Token.rawValue ("z"), Token.eof]
    (by intro name hm; simp at hm)
    (by intro d hm; simp at hm)

/-- C2: given that every stream of a parsed document expands, document
expansion fails with ColumnMismatch exactly when some column length
differs from the first column's, the error carrying the first column's
length and the length of the first differing column; when all lengths
agree it succeeds with the transposed rows.  In particular the document
of the input hash a, hash b, newline, 1 range 3, pipe, x y fails with
ColumnMismatch of 3 and 2. -/
theorem c2_theorem :
    (∀ (doc : AlsDocument) (cols : List (List String))
        (bad : List String), doc.streams ≠ [] →
      expandColumns doc.streams doc.defaultDictionary = .ok cols →
      cols.find?
          (fun col => col.length != ((cols.head?).map List.length).getD 0) =
        some bad →
      AlsParser.expand doc =
        .error (.columnMismatch (((cols.head?).map List.length).getD 0)
          bad.length)) ∧
    (∀ (doc : AlsDocument) (cols : List (List String)), doc.streams ≠ [] →
      expandColumns doc.streams doc.defaultDictionary = .ok cols →
      cols.find?
          (fun col => col.length != ((cols.head?).map List.length).getD 0) =
        none →
      AlsParser.expand doc =
        .ok ((List.range (((cols.head?).map List.length).getD 0)).map
          (fun i => cols.map (fun col => col.getD i (""))))) ∧
    AlsParser.parseAndExpand ParserConfig.default
      [Token.schemaColumn ("a"), Token.schemaColumn ("b"), Token.newline,
        Token.integer 1, Token.rangeOp, Token.integer 3,
        Token.columnSeparator, Token.rawValue ("x"), Token.rawValue ("y"),
        Token.eof] =
      .error (.columnMismatch 3 2) := by
  refine ⟨?_, ?_, ?_⟩
  · intro doc cols bad hne hcols hfind
    rw [AlsParser.expand]
    rw [if_neg (by simp [List.isEmpty_iff, hne])]
    rw [hcols]
    simp only [hfind]
  · intro doc cols hne hcols hfind
    rw [AlsParser.expand]
    rw [if_neg (by simp [List.isEmpty_iff, hne])]
    rw [hcols]
    simp only [hfind]
  · have hdoc : parseDocument ParserConfig.default
        [Token.schemaColumn ("a"), Token.schemaColumn ("b"), Token.newline,
          Token.integer 1, Token.rangeOp, Token.integer 3,
          Token.columnSeparator, Token.rawValue ("x"), Token.rawValue ("y"),
          Token.eof] =
        .ok ⟨1, .als, [], [("a"), ("b")],
          [[AlsOperator.range 1 3 1],
            [AlsOperator.raw ("x"), AlsOperator.raw ("y")]]⟩ := by
      rw [parseDocument]
      simp only [skipNewlines, parseVersionPhase, parseDictHeaders,
        parseSchemaCols, List.isEmpty]
      have hloop : parseStreamsLoop ParserConfig.default
          [Token.integer 1, Token.rangeOp, Token.integer 3,
            Token.columnSeparator, Token.rawValue ("x"),
            Token.rawValue ("y"), Token.eof] [] [] =
          .ok [[AlsOperator.range 1 3 1],
            [AlsOperator.raw ("x"), AlsOperator.raw ("y")]] := by
        rw [parseStreamsLoop_step _ _ _ _ _ (by simp) (by simp) (by simp)]
        simp only [parseElement.eq_def, parseIntegerElement]
        rw [parseRange]
        simp only [bind, Except.bind, expectInteger]
        rw [show ParserConfig.default.maxRangeExpansion = 10000 from rfl]
        rw [rangeSafe_implicit_ok 1 3 (by decide)]
        simp only [show (if (1 : Int) ≤ 3 then (1 : Int) else -1) = 1
          from by norm_num]
        rw [parseRangeTail_not_mul (by decide)]
        simp only []
        rw [parseStreamsLoop]
        rw [parseStreamsLoop_step _ _ _ _ _ (by simp) (by simp) (by simp)]
        simp only [parseElement.eq_def, parseRawElement]
        rw [parseStreamsLoop_step _ _ _ _ _ (by simp) (by simp) (by simp)]
        simp only [parseElement.eq_def, parseRawElement]
        rw [parseStreamsLoop]
        simp
      rw [parseStreams, hloop]
      simp
    rw [AlsParser.parseAndExpand, hdoc]
    simp only []
    decide

theorem c2_witness :
    (([[AlsOperator.range 1 3 1],
        [AlsOperator.raw ("x"), AlsOperator.raw ("y")]] :
      List (List AlsOperator)) ≠ []) ∧
    AlsParser.expand
      ⟨1, .als, [], [("a"), ("b")],
        [[AlsOperator.range 1 3 1],
          [AlsOperator.raw ("x"), AlsOperator.raw ("y")]]⟩ =
      .error (.columnMismatch 3 2) := by
  refine ⟨by simp, ?_⟩
  have h := c2_theorem.1
    ⟨1, .als, [], [("a"), ("b")],
      [[AlsOperator.range 1 3 1],
        [AlsOperator.raw ("x"), AlsOperator.raw ("y")]]⟩
    [[("1"), ("2"), ("3")], [("x"), ("y")]]
    [("x"), ("y")]
    (by simp) (by decide) (by decide)
  simpa using h

/-- C8: whenever the combined detector returns a result, that result's
compression ratio is strictly greater than 1 (the acceptance guards of
CombinedDetector::detect). -/
theorem c8_theorem :
    ∀ (d : CombinedDetector) (values : List String) (r : DetectionResult),
      CombinedDetector.detect d values = some r → 1 < r.ratioValue := by
  have hstep : ∀ (c best : Option DetectionResult) (r : DetectionResult),
      (∀ x, best = some x → 1 < x.ratioValue) →
      detectStep c best = some r → 1 < r.ratioValue := by
    intro c best r hbest h
    match c with
    | none => exact hbest r h
    | some cand =>
        rw [detectStep] at h
        split at h
        · simp at h
          rw [← h]
          rename_i hcond
          simp at hcond
          exact hcond.1
        · exact hbest r h
  intro d values r h
  rw [CombinedDetector.detect] at h
  split at h
  · simp at h
  · exact hstep _ _ r (fun x hx => hstep _ _ x (by simp) hx) h

theorem c8_witness :
    CombinedDetector.detect (CombinedDetector.new 3)
      [("1"), ("2"), ("3"), ("1"), ("2"), ("3")] =
      some ⟨AlsOperator.multiply (.range 1 3 1) 2, Rat.divInt 11 7,
        .repeatedRange⟩ ∧
    (1 : ℚ) <
      (⟨AlsOperator.multiply (.range 1 3 1) 2, Rat.divInt 11 7,
        .repeatedRange⟩ : DetectionResult).ratioValue := by
  refine ⟨by decide, ?_⟩
  exact c8_theorem (CombinedDetector.new 3)
    [("1"), ("2"), ("3"), ("1"), ("2"), ("3")]
    ⟨AlsOperator.multiply (.range 1 3 1) 2, Rat.divInt 11 7, .repeatedRange⟩
    (by decide)

/-- C9: fewer than 4 values never yield a combined detection, whatever
the configured minimum pattern length: both the repeated-range and the
repeated-toggle searches require at least 4 values. -/
theorem c9_theorem :
    ∀ (d : CombinedDetector) (values : List String),
      values.length < 4 → CombinedDetector.detect d values = none := by
  intro d values h
  have h1 : d.detectRepeatedRange values = none := by
    rw [CombinedDetector.detectRepeatedRange, if_pos h]
  have h2 : d.detectRepeatedToggle values = none := by
    rw [CombinedDetector.detectRepeatedToggle, if_pos h]
  rw [CombinedDetector.detect]
  split
  · rfl
  · rw [h1, h2]
    rfl

theorem c9_witness :
    ([("a"), ("b"), ("c")] : List String).length < 4 ∧
    CombinedDetector.detect (CombinedDetector.new 0)
      [("a"), ("b"), ("c")] = none :=
  ⟨by decide, c9_theorem (CombinedDetector.new 0) [("a"), ("b"), ("c")]
    (by decide)⟩

end Als
